import Mathlib

/-!
Shallow embedding of `src/tariff_market_analysis.py` (tariff event-impact
analysis over a daily market data series), together with theorems checking
the natural-language specification against the code.

Conventions of the embedding:
* Python `datetime` dates are a `Date` structure (proleptic Gregorian
  calendar); `timedelta(days = n)` is `addDays`/`subDays`, implemented by
  iterating a calendar successor/predecessor, which agrees with
  `timedelta` day arithmetic.
* pandas objects: a DataFrame of daily bars is a `List Bar` (the index is
  the `date` field); a float Series is a `List` of rationals, with IEEE-754
  special values (NaN, plus and minus infinity) made explicit by the `XF`
  type where the computation can produce them.  Finite float arithmetic is
  idealized as exact rational arithmetic; the special-value behaviour
  (division by zero yielding an infinity or NaN without raising, NaN
  propagation) is modelled exactly.
* Exceptions are `Except Unit`; a Python function that falls off the end
  of its body (returning `None`) is modelled with `Option`.
* External providers (`web.DataReader`) and the fetch collaborator are
  oracles passed as function arguments; the side effects the spec talks
  about (provider calls, `time.sleep`) are recorded in an explicit trace.
-/

/- The Batteries rational-number operations are `@[irreducible]`, which
blocks `decide`-style evaluation of the embedded computations on concrete
inputs; restore default reducibility for them inside this file. -/
set_option allowUnsafeReducibility true

attribute [local semireducible] Rat.add Rat.sub Rat.mul Rat.inv Rat.ofScientific

set_option maxRecDepth 40000

/-! ## Calendar dates (`datetime` / `timedelta`) -/

structure Date where
  year : Int
  month : Nat
  day : Nat
deriving DecidableEq, Repr

def isLeap (y : Int) : Bool :=
  (y % 4 == 0 && y % 100 != 0) || y % 400 == 0

def daysInMonth (y : Int) (m : Nat) : Nat :=
  if m == 2 then (if isLeap y then 29 else 28)
  else if m == 4 || m == 6 || m == 9 || m == 11 then 30
  else 31

def nextDay (d : Date) : Date :=
  if d.day < daysInMonth d.year d.month then ⟨d.year, d.month, d.day + 1⟩
  else if d.month < 12 then ⟨d.year, d.month + 1, 1⟩
  else ⟨d.year + 1, 1, 1⟩

def prevDay (d : Date) : Date :=
  if 1 < d.day then ⟨d.year, d.month, d.day - 1⟩
  else if 1 < d.month then ⟨d.year, d.month - 1, daysInMonth d.year (d.month - 1)⟩
  else ⟨d.year - 1, 12, 31⟩

/-- `d + timedelta(days = n)`. -/
def addDays (d : Date) : Nat → Date
  | 0 => d
  | n + 1 => addDays (nextDay d) n

/-- `d - timedelta(days = n)`. -/
def subDays (d : Date) : Nat → Date
  | 0 => d
  | n + 1 => subDays (prevDay d) n

/-- Chronological comparison of dates (lexicographic on year, month, day),
the order `datetime` comparison uses. -/
def Date.le (a b : Date) : Bool :=
  a.year < b.year ||
    (a.year == b.year &&
      (a.month < b.month || (a.month == b.month && a.day ≤ b.day)))

def Date.lt (a b : Date) : Bool := !(Date.le b a)

/-- Python `min` of two dates. -/
def minDate (a b : Date) : Date := if Date.le a b then a else b

/-! ## Events and the horizon-augmentation loop (source lines 11-55) -/

/-- An input event record (`year`, `event`, `date`); the `country` field is
never read by the analysis and is omitted. -/
structure EventIn where
  year : Int
  event : String
  date : Date
deriving DecidableEq, Repr

/-- An event after the horizon-augmentation loop added the key dates. -/
structure Event where
  year : Int
  event : String
  date : Date
  announcement_date : Date
  one_week_after : Date
  one_month_after : Date
  three_months_after : Date
  six_months_after : Date
  end_of_year : Date
deriving DecidableEq, Repr

/-- The body of the `for event in events` loop (source lines 45-55): parse
the announcement date and add the derived key dates. -/
def addKeyDates (e : EventIn) : Event :=
  { year := e.year
    event := e.event
    date := e.date
    announcement_date := e.date
    one_week_after := addDays e.date 7
    one_month_after := addDays e.date 30
    three_months_after := addDays e.date 90
    six_months_after := addDays e.date 180
    end_of_year := ⟨e.year, 12, 31⟩ }

/-- The first input event of the source's `events` list. -/
def steelEventIn : EventIn :=
  { year := 2018
    event := "Steel and Aluminum Tariffs (25% on Steel, 10% on Aluminum)"
    date := ⟨2018, 3, 1⟩ }

/-! ## Daily bars and the market data fetcher (source lines 69-110) -/

/-- One row of the fetched DataFrame.  Only the index (`date`) and the
`close` and `volume` columns are ever read by the analysis; the other
OHLC columns are omitted. -/
structure Bar where
  date : Date
  close : ℚ
  volume : ℚ
deriving DecidableEq, Repr

/-- `df.sort_index()`: sort bars ascending by date (insertion sort). -/
def insertByDate (b : Bar) : List Bar → List Bar
  | [] => [b]
  | c :: rest =>
    if Date.le b.date c.date then b :: c :: rest else c :: insertByDate b rest

def sortSeries : List Bar → List Bar
  | [] => []
  | b :: rest => insertByDate b (sortSeries rest)

/-- Observable side effects of one run of `fetch_market_data`: calls to the
primary provider (Stooq) and the secondary provider (Yahoo), indexed by the
0-based attempt number, and `time.sleep` calls with their duration in
seconds. -/
inductive FEvent where
  | callPrimary (attempt : Nat)
  | callSecondary (attempt : Nat)
  | sleep (seconds : Nat)
deriving DecidableEq, Repr

/-- Result of `fetch_market_data`: the returned value and the trace of side
effects.  `series = none` models the implicit Python `None` return when the
`for` loop body is never entered (`attempts = 0`); every explicit `return`
is `some`. -/
structure FetchResult where
  series : Option (List Bar)
  trace : List FEvent
deriving DecidableEq, Repr

/-- The `for attempt in range(attempts)` loop of `fetch_market_data`
(source lines 75-110).  A provider oracle maps the attempt number to the
DataFrame returned by `web.DataReader` on that attempt, or to the exception
it raises (`Except.error`).  Per attempt: call the primary; a non-empty
result is sorted and returned; an empty result falls through to the
secondary under the same check; if both are empty an empty DataFrame is
returned at once.  Any exception in the attempt is caught: if another
attempt remains, sleep `2 ^ attempt` seconds and retry, else return an
empty DataFrame. -/
def fetchGo (primary secondary : Nat → Except Unit (List Bar))
    (attempts : Nat) : List Nat → List FEvent → FetchResult
  | [], acc => ⟨none, acc⟩
  | attempt :: rest, acc =>
    let acc1 := acc ++ [FEvent.callPrimary attempt]
    match primary attempt with
    | Except.ok df =>
      if df.isEmpty = false then ⟨some (sortSeries df), acc1⟩
      else
        let acc2 := acc1 ++ [FEvent.callSecondary attempt]
        match secondary attempt with
        | Except.ok df2 =>
          if df2.isEmpty = false then ⟨some (sortSeries df2), acc2⟩
          else ⟨some [], acc2⟩
        | Except.error _ =>
          if attempt < attempts - 1 then
            fetchGo primary secondary attempts rest
              (acc2 ++ [FEvent.sleep (2 ^ attempt)])
          else ⟨some [], acc2⟩
    | Except.error _ =>
      if attempt < attempts - 1 then
        fetchGo primary secondary attempts rest
          (acc1 ++ [FEvent.sleep (2 ^ attempt)])
      else ⟨some [], acc1⟩

/-- `fetch_market_data(symbol, start, end, attempts)` with the two
`web.DataReader` providers abstracted as oracles (the `symbol`, `start` and
`end` arguments only parameterize the providers and are absorbed into the
oracles; the date-normalization prologue is value-preserving).  The loop
runs over the attempt indices `range(attempts)`. -/
def fetch_market_data (primary secondary : Nat → Except Unit (List Bar))
    (attempts : Nat) : FetchResult :=
  fetchGo primary secondary attempts (List.range attempts) []

/-- A provider that returns an empty DataFrame on every call. -/
def alwaysEmptyProvider : Nat → Except Unit (List Bar) := fun _ => Except.ok []

/-- A provider that raises on every call. -/
def alwaysRaiseProvider : Nat → Except Unit (List Bar) := fun _ => Except.error ()

/-! ## The RSI indicator engine (source lines 57-67)

Float values that can be NaN or infinite are modelled by `XF`: a finite
rational, `inf`, `neginf`, or `nan`.  The arithmetic on `XF` follows the
IEEE-754 special-value rules used by numpy/pandas (division by zero yields
a signed infinity, or NaN for `0 / 0`; NaN propagates; finite arithmetic is
idealized as exact; zeros are unsigned and treated as `+0`). -/

inductive XF where
  | fin (q : ℚ)
  | inf
  | neginf
  | nan
deriving DecidableEq, Repr

def xadd : XF → XF → XF
  | XF.nan, _ => XF.nan
  | _, XF.nan => XF.nan
  | XF.inf, XF.neginf => XF.nan
  | XF.neginf, XF.inf => XF.nan
  | XF.inf, _ => XF.inf
  | _, XF.inf => XF.inf
  | XF.neginf, _ => XF.neginf
  | _, XF.neginf => XF.neginf
  | XF.fin a, XF.fin b => XF.fin (a + b)

def xsub : XF → XF → XF
  | XF.nan, _ => XF.nan
  | _, XF.nan => XF.nan
  | XF.inf, XF.inf => XF.nan
  | XF.neginf, XF.neginf => XF.nan
  | XF.inf, _ => XF.inf
  | _, XF.inf => XF.neginf
  | XF.neginf, _ => XF.neginf
  | _, XF.neginf => XF.inf
  | XF.fin a, XF.fin b => XF.fin (a - b)

def xdiv : XF → XF → XF
  | XF.nan, _ => XF.nan
  | _, XF.nan => XF.nan
  | XF.fin a, XF.fin b =>
    if b = 0 then
      (if 0 < a then XF.inf else if a < 0 then XF.neginf else XF.nan)
    else XF.fin (a / b)
  | XF.fin _, XF.inf => XF.fin 0
  | XF.fin _, XF.neginf => XF.fin 0
  | XF.inf, XF.fin b => if b < 0 then XF.neginf else XF.inf
  | XF.neginf, XF.fin b => if b < 0 then XF.inf else XF.neginf
  | XF.inf, _ => XF.nan
  | XF.neginf, _ => XF.nan

/-- A possibly-missing (NaN) float Series entry, as `XF`. -/
def toXF : Option ℚ → XF
  | none => XF.nan
  | some q => XF.fin q

/-- `data.diff()`: the first entry is NaN, entry `i` is
`data[i] - data[i-1]`.  `none` is NaN. -/
def diffS (data : List ℚ) : List (Option ℚ) :=
  match data with
  | [] => []
  | _ :: rest => none :: List.zipWith (fun a b => some (b - a)) data rest

/-- `delta.where(delta > 0, 0)`: keep entries where the condition holds,
replace the rest by 0.  A NaN entry fails the comparison and is replaced by
0 as well, so the output has no NaN. -/
def gainS (delta : List (Option ℚ)) : List ℚ :=
  delta.map (fun d =>
    match d with
    | some v => if 0 < v then v else 0
    | none => 0)

/-- `-delta.where(delta < 0, 0)`: magnitudes of the negative differences,
0 elsewhere (NaN included). -/
def lossS (delta : List (Option ℚ)) : List ℚ :=
  delta.map (fun d =>
    match d with
    | some v => if v < 0 then -v else 0
    | none => 0)

/-- `series.rolling(window = w).mean()` on an all-finite series: entry `i`
is NaN (`none`) while fewer than `w` observations fit in the window
(`min_periods` defaults to the window size), else the mean of entries
`i - w + 1 .. i`. -/
def rollingMean (w : Nat) (xs : List ℚ) : List (Option ℚ) :=
  (List.range xs.length).map (fun i =>
    if i + 1 < w then none
    else some (((xs.take (i + 1)).drop (i + 1 - w)).sum / (w : ℚ)))

/-- `calculate_rsi(data, periods)` (source lines 58-67):
`rs = gain / loss` elementwise, `rsi = 100 - 100 / (1 + rs)`. -/
def calculate_rsi (data : List ℚ) (periods : Nat) : List XF :=
  let delta := diffS data
  let gain := rollingMean periods (gainS delta)
  let loss := rollingMean periods (lossS delta)
  let rs := List.zipWith (fun g l => xdiv (toXF g) (toXF l)) gain loss
  rs.map (fun r => xsub (XF.fin 100) (xdiv (XF.fin 100) (xadd (XF.fin 1) r)))

/-! ## The event impact evaluator (source lines 112-215) -/

/-- A value stored in a result dictionary: the identifying fields hold an
int, a string or a date; each metric field holds either a float or null
(`None`; a NaN metric is identified with null, which is how it materializes
in the persisted table/CSV output). -/
inductive Val where
  | int (n : Int)
  | str (s : String)
  | date (d : Date)
  | num (q : ℚ)
  | null
deriving DecidableEq, Repr

/-- A result dictionary: insertion-ordered key/value pairs. -/
abbrev Row := List (String × Val)

/-- The metric-name list of the source (`create_empty_result` and the
per-period loop of `analyze_event` use the same three names). -/
def metricNames : List String := ["price_change_%", "volume_change_%", "rsi"]

/-- The period-name list of the source. -/
def periodsNames : List String :=
  ["one_week_after", "one_month_after", "three_months_after",
   "six_months_after", "end_of_year"]

/-- `create_empty_result(event)` (source lines 194-215): identifying fields
copied from the event, every period/metric field set to `None`. -/
def create_empty_result (e : Event) : Row :=
  [("year", Val.int e.year), ("event", Val.str e.event), ("date", Val.date e.date)]
    ++ periodsNames.flatMap (fun p =>
        metricNames.map (fun m => (p ++ "_" ++ m, Val.null)))

/-- The analysis periods together with the key date the event dictionary
holds for each (the loop `for period in [...]` reads `event[period]`; for
the five fixed period names that dictionary lookup is total). -/
def periodDates (e : Event) : List (String × Date) :=
  [("one_week_after", e.one_week_after),
   ("one_month_after", e.one_month_after),
   ("three_months_after", e.three_months_after),
   ("six_months_after", e.six_months_after),
   ("end_of_year", e.end_of_year)]

/-- The three metrics `calc_metrics` computes for one period. -/
structure Metrics3 where
  price_change : ℚ
  volume_change : ℚ
  rsi : XF
deriving DecidableEq, Repr

/-- `calc_metrics(after_date)` (source lines 150-165): if some day of the
series is at/after `after_date`, take the first such day and compute the
percentage changes against the baseline and the RSI at that day, else
return `None`.  `rows` pairs each bar with the RSI value of its row (the
`df['rsi']` column).  Division by a zero baseline follows numpy float
semantics — it yields a special value, it does not raise — so the only
effect of a zero baseline is on the numeric value; the exact value produced
there is idealized (rational division by zero is 0 where numpy gives
inf/NaN), which no statement below depends on. -/
def calc_metrics (rows : List (Bar × XF)) (pre_tariff_price pre_tariff_volume : ℚ)
    (after_date : Date) : Option Metrics3 :=
  match rows.find? (fun r => Date.le after_date r.1.date) with
  | some r =>
    some { price_change := (r.1.close - pre_tariff_price) / pre_tariff_price * 100
           volume_change := (r.1.volume - pre_tariff_volume) / pre_tariff_volume * 100
           rsi := r.2 }
  | none => none

/-- How a metric value is put into the result dictionary: a defined RSI or
percentage is a float, an undefined (NaN) RSI materializes as null. -/
def xfToVal : XF → Val
  | XF.fin q => Val.num q
  | _ => Val.null

/-- One iteration of the period loop (source lines 169-179): three keyed
metric fields, taken from `calc_metrics` when it returned data and set to
`None` otherwise. -/
def metricsFor (rows : List (Bar × XF)) (pre_tariff_price pre_tariff_volume : ℚ)
    (pd : String × Date) : Row :=
  match calc_metrics rows pre_tariff_price pre_tariff_volume pd.2 with
  | some m =>
    [(pd.1 ++ "_" ++ "price_change_%", Val.num m.price_change),
     (pd.1 ++ "_" ++ "volume_change_%", Val.num m.volume_change),
     (pd.1 ++ "_" ++ "rsi", xfToVal m.rsi)]
  | none => metricNames.map (fun mn => (pd.1 ++ "_" ++ mn, Val.null))

/-- The result dictionary assembled on the success path of `analyze_event`
(source lines 181-187). -/
def successRow (e : Event) (rows : List (Bar × XF))
    (pre_tariff_price pre_tariff_volume : ℚ) : Row :=
  [("year", Val.int e.year), ("event", Val.str e.event), ("date", Val.date e.date)]
    ++ (periodDates e).flatMap (metricsFor rows pre_tariff_price pre_tariff_volume)

/-- The part of the `try` body of `analyze_event` that runs after a
non-empty DataFrame was fetched (source lines 137-187): normalize columns
(the `Bar` fields are already canonical), add the RSI column, select the
baseline day as the first day at/after the announcement date —
`df.index[df.index >= start_date][0]` raises `IndexError` when no day
qualifies, modelled as `Except.error` — and build the result dictionary. -/
def analyzeBody (e : Event) (df : List Bar) : Except Unit Row :=
  let rsis := calculate_rsi (df.map Bar.close) 14
  let rows := df.zip rsis
  match rows.find? (fun r => Date.le e.date r.1.date) with
  | none => Except.error ()
  | some r => Except.ok (successRow e rows r.1.close r.1.volume)

/-- `analyze_event(event, symbol)` (source lines 113-191).  The fetch
collaborator (`fetch_market_data` applied to the symbol) is an oracle from
the requested date range to the returned series, and `now` stands for
`datetime.now()`.  Returns the result dictionary together with the number
of fetch calls made.  The `except` clause at the function boundary turns
any exception from the body into `create_empty_result(event)`. -/
def analyze_event (fetch : Date → Date → List Bar) (now : Date) (e : Event) :
    Row × Nat :=
  let start_date := e.date
  let lookback_start := subDays start_date 30
  let end_date := minDate (addDays start_date 365) now
  if Date.lt (subDays now 30) start_date then
    (create_empty_result e, 0)
  else
    let df := fetch lookback_start end_date
    if df.isEmpty then (create_empty_result e, 1)
    else
      match analyzeBody e df with
      | Except.ok r => (r, 1)
      | Except.error _ => (create_empty_result e, 1)

/-! ## Concrete fixtures used by witnesses and counterexamples -/

/-- The first event of the source's list, after horizon augmentation. -/
def steelEvent : Event := addKeyDates steelEventIn

/-- A `datetime.now()` well after the 2018 events. -/
def cNow : Date := ⟨2019, 1, 1⟩

/-- A bar before the announcement, one two days after it, and one after the
one-week horizon. -/
def wBar1 : Bar := ⟨⟨2018, 2, 27⟩, 10, 100⟩
def wBar2 : Bar := ⟨⟨2018, 3, 3⟩, 12, 200⟩
def wBar3 : Bar := ⟨⟨2018, 3, 9⟩, 15, 300⟩

def wdf : List Bar := [wBar1, wBar2, wBar3]

/-- A fetch collaborator returning `wdf` for any range. -/
def wFetch : Date → Date → List Bar := fun _ _ => wdf

/-- `wdf` paired with its RSI column. -/
def wRows : List (Bar × XF) := wdf.zip (calculate_rsi (wdf.map Bar.close) 14)

/-- A fetch collaborator whose baseline day has a zero close and volume. -/
def zFetch : Date → Date → List Bar :=
  fun _ _ => [⟨⟨2018, 3, 1⟩, 0, 0⟩, ⟨⟨2018, 3, 8⟩, 5, 50⟩]

/-- A fetch collaborator whose series lies entirely before the announcement
date, so the baseline lookup raises. -/
def bFetch : Date → Date → List Bar := fun _ _ => [wBar1]

/-- A strictly increasing 15-day closing-price series. -/
def dat15 : List ℚ := [1, 2, 3, 4, 5, 6, 7, 8, 9, 10, 11, 12, 13, 14, 15]

/-! ## Helper lemmas -/

/-- `List.find?` returns the first element satisfying the predicate: the
list splits at the hit and everything before it fails the predicate. -/
theorem find?_decomp {α} (p : α → Bool) :
    ∀ (l : List α) (a : α), l.find? p = some a →
      ∃ l1 l2, l = l1 ++ a :: l2 ∧ ∀ x ∈ l1, p x = false := by
  intro l
  induction l with
  | nil => intro a h; simp [List.find?] at h
  | cons x rest ih =>
    intro a h
    by_cases hx : p x = true
    · refine ⟨[], rest, ?_, by simp⟩
      simp [List.find?_cons_of_pos _ hx] at h
      simp [h]
    · have hx' : p x = false := by simpa using hx
      rw [List.find?_cons_of_neg _ (by simp [hx'])] at h
      obtain ⟨l1, l2, rfl, hl1⟩ := ih a h
      exact ⟨x :: l1, l2, rfl, by
        intro y hy
        rcases List.mem_cons.1 hy with rfl | hy
        · exact hx'
        · exact hl1 y hy⟩

/-! ## C3 — horizon derivation -/

/-- C3 (counterexample): the claim states that for announcement date
2018-03-01 the six-month horizon is 2018-08-27; the derivation in the code
(`date + timedelta(days = 180)`) yields 2018-08-28 instead. -/
theorem c3_counterexample :
    (addKeyDates steelEventIn).six_months_after = ⟨2018, 8, 28⟩ ∧
    (⟨2018, 8, 28⟩ : Date) ≠ ⟨2018, 8, 27⟩ := by
  constructor
  · decide
  · decide

/-- C3 (amended): the horizon derivation is deterministic (a pure function
of the event's date and year) and, for announcement date 2018-03-01 and
year 2018, yields one-week = 2018-03-08, one-month = 2018-03-31,
three-months = 2018-05-30, six-months = 2018-08-28 (not 08-27), and
end-of-year = 2018-12-31. -/
theorem c3_horizon_dates :
    (addKeyDates steelEventIn).one_week_after = ⟨2018, 3, 8⟩ ∧
    (addKeyDates steelEventIn).one_month_after = ⟨2018, 3, 31⟩ ∧
    (addKeyDates steelEventIn).three_months_after = ⟨2018, 5, 30⟩ ∧
    (addKeyDates steelEventIn).six_months_after = ⟨2018, 8, 28⟩ ∧
    (addKeyDates steelEventIn).end_of_year = ⟨2018, 12, 31⟩ := by
  refine ⟨?_, ?_, ?_, ?_, ?_⟩ <;> decide

/-! ## C7 — recency guard -/

/-- C7: when the announcement date is within 30 days of now (strictly
after `now - 30 days`), `analyze_event` short-circuits to the empty
placeholder result and performs no fetch call. -/
theorem c7_recency_guard (fetch : Date → Date → List Bar) (now : Date)
    (e : Event) (h : Date.lt (subDays now 30) e.date = true) :
    analyze_event fetch now e = (create_empty_result e, 0) := by
  simp [analyze_event, h]

/-- C7 witness: an event four days in the past is skipped with zero fetch
calls. -/
theorem c7_recency_guard_witness :
    analyze_event wFetch ⟨2018, 3, 5⟩ steelEvent = (create_empty_result steelEvent, 0) :=
  c7_recency_guard wFetch ⟨2018, 3, 5⟩ steelEvent (by decide)

/-! ## C2 — both providers empty -/

/-- C2 (counterexample): the claim states that when both providers return
an empty series without raising, the two-provider attempt is retried with
exponential backoff up to `maxAttempts` times.  In the code the both-empty
case hits an immediate `return pd.DataFrame()`: with `attempts = 3` each
provider is called exactly once, there is no second attempt and no backoff
sleep. -/
theorem c2_counterexample :
    fetch_market_data alwaysEmptyProvider alwaysEmptyProvider 3 =
      ⟨some [], [FEvent.callPrimary 0, FEvent.callSecondary 0]⟩ ∧
    FEvent.callPrimary 1 ∉
      (fetch_market_data alwaysEmptyProvider alwaysEmptyProvider 3).trace ∧
    FEvent.sleep 1 ∉
      (fetch_market_data alwaysEmptyProvider alwaysEmptyProvider 3).trace := by
  refine ⟨?_, ?_, ?_⟩ <;> decide

/-- C2 (amended): when both providers return an empty series without
raising, `fetch_market_data` returns an empty series immediately during
the first attempt — one call to each provider, no retry and no backoff
sleep; the retry-with-`2 ^ attempt`-backoff loop is entered only when an
exception is raised. -/
theorem c2_both_empty_returns_immediately
    (primary secondary : Nat → Except Unit (List Bar)) (attempts : Nat)
    (hA : 0 < attempts) (hp : primary 0 = Except.ok [])
    (hs : secondary 0 = Except.ok []) :
    fetch_market_data primary secondary attempts =
      ⟨some [], [FEvent.callPrimary 0, FEvent.callSecondary 0]⟩ := by
  obtain ⟨m, rfl⟩ : ∃ m, attempts = m + 1 := ⟨attempts - 1, by omega⟩
  rw [fetch_market_data, List.range_succ_eq_map]
  simp [fetchGo, hp, hs]

/-- C2 witness: the amended statement at the always-empty providers. -/
theorem c2_both_empty_witness :
    fetch_market_data alwaysEmptyProvider alwaysEmptyProvider 2 =
      ⟨some [], [FEvent.callPrimary 0, FEvent.callSecondary 0]⟩ :=
  c2_both_empty_returns_immediately alwaysEmptyProvider alwaysEmptyProvider 2
    (by decide) rfl rfl

/-! ## C8 — both providers fail on every attempt -/

/-- C8 (counterexample): the claim states that when both providers fail on
every attempt, the fetch performs `maxAttempts` attempt-pairs.  When the
failures are exceptions, the primary's exception aborts each attempt, so
the secondary provider is called zero times — there are no attempt-pairs
(the empty series, the 1s/2s backoff and the absence of an exception do
hold). -/
theorem c8_counterexample :
    fetch_market_data alwaysRaiseProvider alwaysRaiseProvider 3 =
      ⟨some [], [FEvent.callPrimary 0, FEvent.sleep 1, FEvent.callPrimary 1,
                 FEvent.sleep 2, FEvent.callPrimary 2]⟩ ∧
    FEvent.callSecondary 0 ∉
      (fetch_market_data alwaysRaiseProvider alwaysRaiseProvider 3).trace ∧
    FEvent.callSecondary 1 ∉
      (fetch_market_data alwaysRaiseProvider alwaysRaiseProvider 3).trace ∧
    FEvent.callSecondary 2 ∉
      (fetch_market_data alwaysRaiseProvider alwaysRaiseProvider 3).trace := by
  refine ⟨?_, ?_, ?_, ?_⟩ <;> decide

/-- C8 (amended): when the primary provider raises on every attempt,
`fetch_market_data` with `maxAttempts = 3` makes exactly three primary
attempts (the secondary is never consulted, because an exception aborts
the attempt), sleeps 1s then 2s between attempts with no delay after the
final one, returns an empty series, and raises no exception to the caller
(the function is total and returns normally). -/
theorem c8_exhaustion (primary secondary : Nat → Except Unit (List Bar))
    (hp : ∀ n, primary n = Except.error ()) :
    fetch_market_data primary secondary 3 =
      ⟨some [], [FEvent.callPrimary 0, FEvent.sleep 1, FEvent.callPrimary 1,
                 FEvent.sleep 2, FEvent.callPrimary 2]⟩ := by
  have hrange : List.range 3 = [0, 1, 2] := by decide
  rw [fetch_market_data, hrange]
  simp [fetchGo, hp 0, hp 1, hp 2]

/-- C8 witness: the amended statement at the always-raising provider. -/
theorem c8_exhaustion_witness :
    fetch_market_data alwaysRaiseProvider alwaysEmptyProvider 3 =
      ⟨some [], [FEvent.callPrimary 0, FEvent.sleep 1, FEvent.callPrimary 1,
                 FEvent.sleep 2, FEvent.callPrimary 2]⟩ :=
  c8_exhaustion alwaysRaiseProvider alwaysEmptyProvider (fun _ => rfl)

/-! ## C10 — the secondary is reached only after an empty primary result -/

/-- The trace invariant of the fetch loop: a secondary-provider call on
attempt `n` can only have been recorded after the primary returned an
empty series on attempt `n` without raising. -/
theorem fetchGo_secondary_mem (primary secondary : Nat → Except Unit (List Bar))
    (attempts : Nat) :
    ∀ (idxs : List Nat) (acc : List FEvent) (n : Nat),
      FEvent.callSecondary n ∈ (fetchGo primary secondary attempts idxs acc).trace →
      FEvent.callSecondary n ∈ acc ∨ primary n = Except.ok [] := by
  intro idxs
  induction idxs with
  | nil =>
    intro acc n h
    exact Or.inl h
  | cons a rest ih =>
    intro acc n h
    simp only [fetchGo] at h
    cases hpa : primary a with
    | error u =>
      rw [hpa] at h
      simp only [] at h
      by_cases hlast : a < attempts - 1
      · rw [if_pos hlast] at h
        rcases ih _ n h with h2 | h2
        · simp at h2
          exact Or.inl h2
        · exact Or.inr h2
      · rw [if_neg hlast] at h
        simp at h
        exact Or.inl h
    | ok df =>
      rw [hpa] at h
      simp only [] at h
      cases hdf : df.isEmpty with
      | false =>
        rw [hdf] at h
        simp at h
        exact Or.inl h
      | true =>
        have hdfnil : df = [] := List.isEmpty_iff.1 hdf
        rw [hdf] at h
        simp only [Bool.true_eq_false, if_false] at h
        cases hsa : secondary a with
        | error u2 =>
          rw [hsa] at h
          simp only [] at h
          by_cases hlast : a < attempts - 1
          · rw [if_pos hlast] at h
            rcases ih _ n h with h2 | h2
            · simp at h2
              rcases h2 with h2 | h2
              · exact Or.inl h2
              · subst h2
                exact Or.inr (by rw [hpa, hdfnil])
            · exact Or.inr h2
          · rw [if_neg hlast] at h
            simp at h
            rcases h with h | h
            · exact Or.inl h
            · subst h
              exact Or.inr (by rw [hpa, hdfnil])
        | ok df2 =>
          rw [hsa] at h
          simp only [] at h
          cases hdf2 : df2.isEmpty with
          | false =>
            rw [hdf2] at h
            simp at h
            rcases h with h | h
            · exact Or.inl h
            · subst h
              exact Or.inr (by rw [hpa, hdfnil])
          | true =>
            rw [hdf2] at h
            simp at h
            rcases h with h | h
            · exact Or.inl h
            · subst h
              exact Or.inr (by rw [hpa, hdfnil])

/-- C10: in every run of `fetch_market_data`, the secondary provider is
consulted on an attempt only if the primary provider returned an empty
series on that attempt without raising; a primary exception aborts the
attempt before the secondary is reached. -/
theorem c10_secondary_requires_empty_primary
    (primary secondary : Nat → Except Unit (List Bar)) (attempts n : Nat)
    (h : FEvent.callSecondary n ∈ (fetch_market_data primary secondary attempts).trace) :
    primary n = Except.ok [] := by
  rcases fetchGo_secondary_mem primary secondary attempts (List.range attempts) [] n h with
    h2 | h2
  · cases h2
  · exact h2

/-- C10 witness: in a run whose trace contains a secondary call, the
primary did return an empty series on that attempt. -/
theorem c10_witness : alwaysEmptyProvider 0 = Except.ok [] :=
  c10_secondary_requires_empty_primary alwaysEmptyProvider alwaysRaiseProvider 3 0
    (by decide)

/-! ## Row-shape lemmas for the evaluator -/

/-- The three keys one period loop iteration contributes, whether or not
`calc_metrics` found data. -/
theorem metricsFor_keys (rows : List (Bar × XF)) (pp pv : ℚ) (pd : String × Date) :
    (metricsFor rows pp pv pd).map Prod.fst =
      [pd.1 ++ "_" ++ "price_change_%", pd.1 ++ "_" ++ "volume_change_%",
       pd.1 ++ "_" ++ "rsi"] := by
  unfold metricsFor
  cases calc_metrics rows pp pv pd.2 <;> simp [metricNames]

/-- Every value a period loop iteration contributes is a float or null. -/
theorem metricsFor_vals (rows : List (Bar × XF)) (pp pv : ℚ) (pd : String × Date) :
    ∀ kv ∈ metricsFor rows pp pv pd, (∃ q, kv.2 = Val.num q) ∨ kv.2 = Val.null := by
  intro kv hkv
  unfold metricsFor at hkv
  cases hm : calc_metrics rows pp pv pd.2 with
  | none =>
    rw [hm] at hkv
    simp [metricNames] at hkv
    rcases hkv with rfl | rfl | rfl <;> simp
  | some m =>
    rw [hm] at hkv
    simp at hkv
    rcases hkv with rfl | rfl | rfl
    · exact Or.inl ⟨m.price_change, rfl⟩
    · exact Or.inl ⟨m.volume_change, rfl⟩
    · cases hr : m.rsi <;> simp [xfToVal]

/-- Keys of the empty placeholder row. -/
theorem create_empty_keys (e : Event) :
    (create_empty_result e).map Prod.fst =
      ["year", "event", "date"] ++
        periodsNames.flatMap (fun p => metricNames.map (fun m => p ++ "_" ++ m)) := rfl

/-- Keys of the success row equal those of the empty placeholder. -/
theorem successRow_keys (e : Event) (rows : List (Bar × XF)) (pp pv : ℚ) :
    (successRow e rows pp pv).map Prod.fst =
      ["year", "event", "date"] ++
        periodsNames.flatMap (fun p => metricNames.map (fun m => p ++ "_" ++ m)) := by
  simp only [successRow, periodDates, List.flatMap_cons, List.flatMap_nil,
    List.map_append, List.map_cons, List.map_nil, List.append_nil]
  rw [metricsFor_keys, metricsFor_keys, metricsFor_keys, metricsFor_keys, metricsFor_keys]
  rfl

/-- The body fails exactly when no day is at/after the announcement. -/
theorem analyzeBody_err (e : Event) (df : List Bar)
    (hf : (df.zip (calculate_rsi (df.map Bar.close) 14)).find?
        (fun x => Date.le e.date x.1.date) = none) :
    analyzeBody e df = Except.error () := by
  simp [analyzeBody, hf]

/-- On a successful baseline lookup the body returns the success row built
from the baseline day's close and volume. -/
theorem analyzeBody_ok (e : Event) (df : List Bar) (b : Bar × XF)
    (hf : (df.zip (calculate_rsi (df.map Bar.close) 14)).find?
        (fun x => Date.le e.date x.1.date) = some b) :
    analyzeBody e df =
      Except.ok (successRow e (df.zip (calculate_rsi (df.map Bar.close) 14))
        b.1.close b.1.volume) := by
  simp [analyzeBody, hf]

/-- Every result of `analyze_event` is the empty placeholder or a success
row. -/
theorem analyze_event_row_shape (fetch : Date → Date → List Bar) (now : Date)
    (e : Event) :
    (analyze_event fetch now e).1 = create_empty_result e ∨
    ∃ rows pp pv, (analyze_event fetch now e).1 = successRow e rows pp pv := by
  unfold analyze_event
  cases hg : Date.lt (subDays now 30) e.date
  · simp only [hg, Bool.false_eq_true, if_false]
    cases hne : (fetch (subDays e.date 30) (minDate (addDays e.date 365) now)).isEmpty
    · simp only [Bool.false_eq_true, if_false]
      cases hb : analyzeBody e (fetch (subDays e.date 30) (minDate (addDays e.date 365) now)) with
      | error u => simp
      | ok r =>
        rcases hf : ((fetch (subDays e.date 30) (minDate (addDays e.date 365) now)).zip
            (calculate_rsi ((fetch (subDays e.date 30)
              (minDate (addDays e.date 365) now)).map Bar.close) 14)).find?
            (fun x => Date.le e.date x.1.date) with _ | b
        · rw [analyzeBody_err _ _ hf] at hb
          cases hb
        · rw [analyzeBody_ok _ _ _ hf] at hb
          cases hb
          simp only []
          exact Or.inr ⟨_, _, _, rfl⟩
    · simp [hne]
  · simp [hg]

/-- The metric fields of the empty placeholder row. -/
theorem create_empty_drop3 (e : Event) :
    (create_empty_result e).drop 3 =
      periodsNames.flatMap (fun p =>
        metricNames.map (fun m => (p ++ "_" ++ m, Val.null))) := rfl

/-- The metric fields of the success row. -/
theorem successRow_drop3 (e : Event) (rows : List (Bar × XF)) (pp pv : ℚ) :
    (successRow e rows pp pv).drop 3 = (periodDates e).flatMap (metricsFor rows pp pv) := rfl

/-! ## C1 — schema completeness -/

/-- C1: for every input event (and every fetch behaviour and current date),
`analyze_event` returns exactly one result row whose keys are exactly
`year`, `event`, `date` followed by the `3 × 5 = 15` period/metric keys in
the fixed order (so 18 fields in all), and every metric field holds either
a float or null — the schema is complete even when every metric is null.
The embedded evaluator is a total function, so no run-fatal error path
exists. -/
theorem c1_schema (fetch : Date → Date → List Bar) (now : Date) (e : Event) :
    ((analyze_event fetch now e).1.map Prod.fst =
      ["year", "event", "date"] ++
        periodsNames.flatMap (fun p => metricNames.map (fun m => p ++ "_" ++ m))) ∧
    (analyze_event fetch now e).1.length = 18 ∧
    (∀ kv ∈ (analyze_event fetch now e).1.drop 3,
      (∃ q, kv.2 = Val.num q) ∨ kv.2 = Val.null) := by
  rcases analyze_event_row_shape fetch now e with h | ⟨rows, pp, pv, h⟩ <;> rw [h]
  · refine ⟨create_empty_keys e, ?_, ?_⟩
    · have h2 := congrArg List.length (create_empty_keys e)
      rw [List.length_map] at h2
      rw [h2]
      rfl
    · intro kv hkv
      rw [create_empty_drop3] at hkv
      simp only [List.mem_flatMap, List.mem_map] at hkv
      obtain ⟨p, _, m, _, rfl⟩ := hkv
      exact Or.inr rfl
  · refine ⟨successRow_keys e rows pp pv, ?_, ?_⟩
    · have h2 := congrArg List.length (successRow_keys e rows pp pv)
      rw [List.length_map] at h2
      rw [h2]
      rfl
    · intro kv hkv
      rw [successRow_drop3] at hkv
      simp only [List.mem_flatMap] at hkv
      obtain ⟨pd, _, hkv⟩ := hkv
      exact metricsFor_vals rows pp pv pd kv hkv

/-- C1 witness: the schema statement applied to a concrete all-null run. -/
theorem c1_schema_witness :
    (∃ q, (("one_week_after" ++ "_" ++ "rsi", Val.null) : String × Val).2 = Val.num q) ∨
    (("one_week_after" ++ "_" ++ "rsi", Val.null) : String × Val).2 = Val.null :=
  (c1_schema bFetch cNow steelEvent).2.2 ("one_week_after" ++ "_" ++ "rsi", Val.null)
    (by decide)

/-! ## C5 — baseline selection -/

/-- The success row of the concrete three-bar fixture. -/
def wRow : Row := successRow steelEvent wRows wBar2.close wBar2.volume

/-- C5: past the recency guard and with a non-empty fetched series, the
baseline trading day is the first day of the series whose date is at/after
the announcement date (everything before it in the series is strictly
earlier than the announcement): its close and volume become the baseline
price and volume of the produced row; and when the series has no day
at/after the announcement date, the evaluator returns the empty
placeholder result. -/
theorem c5_baseline (fetch : Date → Date → List Bar) (now : Date) (e : Event)
    (df : List Bar)
    (hdf : fetch (subDays e.date 30) (minDate (addDays e.date 365) now) = df)
    (hg : Date.lt (subDays now 30) e.date = false)
    (hne : df.isEmpty = false) :
    ((df.zip (calculate_rsi (df.map Bar.close) 14)).find?
        (fun x => Date.le e.date x.1.date) = none →
      analyze_event fetch now e = (create_empty_result e, 1)) ∧
    (∀ b, (df.zip (calculate_rsi (df.map Bar.close) 14)).find?
        (fun x => Date.le e.date x.1.date) = some b →
      Date.le e.date b.1.date = true ∧
      (∃ pre post, df.zip (calculate_rsi (df.map Bar.close) 14) = pre ++ b :: post ∧
        ∀ x ∈ pre, Date.le e.date x.1.date = false) ∧
      analyze_event fetch now e =
        (successRow e (df.zip (calculate_rsi (df.map Bar.close) 14))
          b.1.close b.1.volume, 1)) := by
  constructor
  · intro hf
    simp [analyze_event, hg, hdf, hne, analyzeBody_err e df hf]
  · intro b hf
    have hb := List.find?_some hf
    refine ⟨hb, ?_, ?_⟩
    · obtain ⟨l1, l2, heq, hl1⟩ := find?_decomp _ _ _ hf
      exact ⟨l1, l2, heq, hl1⟩
    · simp [analyze_event, hg, hdf, hne, analyzeBody_ok e df b hf]

/-- C5 witness: a series with no bar on the announcement date but a bar
two days later uses that later bar's close and volume as the baseline. -/
theorem c5_baseline_witness :
    analyze_event wFetch cNow steelEvent =
      (successRow steelEvent (wdf.zip (calculate_rsi (wdf.map Bar.close) 14))
        wBar2.close wBar2.volume, 1) :=
  ((c5_baseline wFetch cNow steelEvent wdf rfl (by decide) (by decide)).2
    (wBar2, XF.nan) (by decide)).2.2

/-! ## C6 — per-horizon independence and null propagation -/

/-- C6: on the success path, each configured horizon is handled
independently: when the series has no day at/after the horizon's target
date, all three of that horizon's metric fields are null on the produced
row (while any horizon whose lookup succeeds gets numeric price and volume
changes on the same row); and when the horizon's day is found, the rsi
field carries that day's indicator value, materializing as null when it is
undefined (warm-up window). -/
theorem c6_per_horizon (e : Event) (df : List Bar) (r : Row)
    (hok : analyzeBody e df = Except.ok r) :
    ∀ pd ∈ periodDates e,
      ((df.zip (calculate_rsi (df.map Bar.close) 14)).find?
          (fun x => Date.le pd.2 x.1.date) = none →
        ∀ mn ∈ metricNames, (pd.1 ++ "_" ++ mn, Val.null) ∈ r) ∧
      (∀ b, (df.zip (calculate_rsi (df.map Bar.close) 14)).find?
          (fun x => Date.le pd.2 x.1.date) = some b →
        (∃ q, (pd.1 ++ "_" ++ "price_change_%", Val.num q) ∈ r) ∧
        (∃ q, (pd.1 ++ "_" ++ "volume_change_%", Val.num q) ∈ r) ∧
        (pd.1 ++ "_" ++ "rsi", xfToVal b.2) ∈ r) := by
  rcases hf : (df.zip (calculate_rsi (df.map Bar.close) 14)).find?
      (fun x => Date.le e.date x.1.date) with _ | bp
  · rw [analyzeBody_err e df hf] at hok
    cases hok
  · rw [analyzeBody_ok e df bp hf] at hok
    cases hok
    intro pd hpd
    constructor
    · intro hfind mn hmn
      refine List.mem_append.2 (Or.inr (List.mem_flatMap.2 ⟨pd, hpd, ?_⟩))
      unfold metricsFor calc_metrics
      rw [hfind]
      exact List.mem_map.2 ⟨mn, hmn, rfl⟩
    · intro b hfind
      have hmf : metricsFor (df.zip (calculate_rsi (df.map Bar.close) 14))
          bp.1.close bp.1.volume pd =
          [(pd.1 ++ "_" ++ "price_change_%",
            Val.num ((b.1.close - bp.1.close) / bp.1.close * 100)),
           (pd.1 ++ "_" ++ "volume_change_%",
            Val.num ((b.1.volume - bp.1.volume) / bp.1.volume * 100)),
           (pd.1 ++ "_" ++ "rsi", xfToVal b.2)] := by
        unfold metricsFor calc_metrics
        rw [hfind]
      have hin : ∀ kv ∈ metricsFor (df.zip (calculate_rsi (df.map Bar.close) 14))
          bp.1.close bp.1.volume pd,
          kv ∈ successRow e (df.zip (calculate_rsi (df.map Bar.close) 14))
            bp.1.close bp.1.volume :=
        fun kv hkv => List.mem_append.2 (Or.inr (List.mem_flatMap.2 ⟨pd, hpd, hkv⟩))
      refine ⟨⟨(b.1.close - bp.1.close) / bp.1.close * 100,
                hin (pd.1 ++ "_" ++ "price_change_%",
                  Val.num ((b.1.close - bp.1.close) / bp.1.close * 100)) ?_⟩,
              ⟨(b.1.volume - bp.1.volume) / bp.1.volume * 100,
                hin (pd.1 ++ "_" ++ "volume_change_%",
                  Val.num ((b.1.volume - bp.1.volume) / bp.1.volume * 100)) ?_⟩,
              hin (pd.1 ++ "_" ++ "rsi", xfToVal b.2) ?_⟩ <;> rw [hmf] <;> simp

/-- C6 witness: in the three-bar fixture, the one-week horizon finds a day
whose indicator value is still in the warm-up window, so its rsi field is
null, and the end-of-year horizon lies beyond the data, so its rsi field
is null as well — both on the same row. -/
theorem c6_per_horizon_witness :
    ("one_week_after" ++ "_" ++ "rsi", xfToVal XF.nan) ∈ wRow ∧
    ("end_of_year" ++ "_" ++ "rsi", Val.null) ∈ wRow := by
  have h := c6_per_horizon steelEvent wdf wRow (by rfl)
  constructor
  · exact (((h ("one_week_after", steelEvent.one_week_after)
      (by simp [periodDates])).2 (wBar3, XF.nan)) (by decide)).2.2
  · exact ((h ("end_of_year", steelEvent.end_of_year)
      (by simp [periodDates])).1 (by decide) "rsi" (by simp [metricNames]))

/-! ## C9 — the per-event exception boundary -/

/-- C9 (amended): any exception raised by the evaluator body (for example
the baseline lookup failing) is caught at the per-event boundary and
converted into the empty placeholder result for that event, and the
evaluator always returns a row, so one event's failure cannot abort the
analysis of other events.  Division by a zero baseline, however, is not an
exception (see the counterexample). -/
theorem c9_boundary (fetch : Date → Date → List Bar) (now : Date) (e : Event)
    (df : List Bar)
    (hdf : fetch (subDays e.date 30) (minDate (addDays e.date 365) now) = df)
    (hg : Date.lt (subDays now 30) e.date = false)
    (hne : df.isEmpty = false)
    (herr : analyzeBody e df = Except.error ()) :
    analyze_event fetch now e = (create_empty_result e, 1) := by
  simp [analyze_event, hg, hdf, hne, herr]

/-- C9 witness: a series lying entirely before the announcement date makes
the baseline lookup raise, and the evaluator produces the empty
placeholder. -/
theorem c9_boundary_witness :
    analyze_event bFetch cNow steelEvent = (create_empty_result steelEvent, 1) :=
  c9_boundary bFetch cNow steelEvent [wBar1] rfl (by decide) (by decide) (by rfl)

/-- C9 (counterexample): a zero baseline price/volume does not produce the
empty placeholder.  The percentage-change division by the zero baseline
follows numpy float semantics — it returns a value instead of raising — so
the evaluator produces a populated row whose metric field is present and
not null, contradicting the claim that this case is converted to the empty
placeholder result. -/
theorem c9_counterexample :
    (analyze_event zFetch cNow steelEvent).1 ≠ create_empty_result steelEvent ∧
    (analyze_event zFetch cNow steelEvent).1.lookup "one_week_after_price_change_%" ≠
      some Val.null ∧
    ((analyze_event zFetch cNow steelEvent).1.lookup
        "one_week_after_price_change_%").isSome = true := by
  refine ⟨?_, ?_, ?_⟩ <;> decide

/-! ## C4 — RSI shape, warm-up and bounds -/

/-- `data.diff()` preserves the length. -/
theorem diffS_length (data : List ℚ) : (diffS data).length = data.length := by
  cases data with
  | nil => rfl
  | cons x rest =>
    simp [diffS, List.length_zipWith]

/-- The gain series preserves the length. -/
theorem gainS_length (delta : List (Option ℚ)) : (gainS delta).length = delta.length := by
  simp [gainS]

/-- The loss series preserves the length. -/
theorem lossS_length (delta : List (Option ℚ)) : (lossS delta).length = delta.length := by
  simp [lossS]

/-- A rolling mean preserves the length. -/
theorem rollingMean_length (w : Nat) (xs : List ℚ) :
    (rollingMean w xs).length = xs.length := by
  simp [rollingMean]

/-- The RSI output has the length of its input. -/
theorem calculate_rsi_length (data : List ℚ) (periods : Nat) :
    (calculate_rsi data periods).length = data.length := by
  simp [calculate_rsi, List.length_zipWith, rollingMean_length, gainS_length,
    lossS_length, diffS_length]

/-- In-range `getD` as `getElem?`. -/
theorem getElem?_eq_some_getD {α} (l : List α) (i : Nat) (d : α) (h : i < l.length) :
    l[i]? = some (l.getD i d) := by
  rw [List.getD_eq_getElem?_getD, List.getElem?_eq_getElem h]
  rfl

/-- Entry `i` of a rolling mean. -/
theorem rollingMean_getD (w : Nat) (xs : List ℚ) (i : Nat) (h : i < xs.length) :
    (rollingMean w xs).getD i none =
      if i + 1 < w then none
      else some (((xs.take (i + 1)).drop (i + 1 - w)).sum / (w : ℚ)) := by
  rw [List.getD_eq_getElem?_getD, rollingMean, List.getElem?_map,
    List.getElem?_range h]
  rfl

/-- Entry `i` of the RSI output in terms of the rolling gain and loss
means at `i`. -/
theorem calculate_rsi_getD (data : List ℚ) (periods i : Nat) (h : i < data.length) :
    (calculate_rsi data periods).getD i XF.nan =
      xsub (XF.fin 100) (xdiv (XF.fin 100) (xadd (XF.fin 1)
        (xdiv (toXF ((rollingMean periods (gainS (diffS data))).getD i none))
              (toXF ((rollingMean periods (lossS (diffS data))).getD i none))))) := by
  have hg : i < (rollingMean periods (gainS (diffS data))).length := by
    rw [rollingMean_length, gainS_length, diffS_length]; exact h
  have hl : i < (rollingMean periods (lossS (diffS data))).length := by
    rw [rollingMean_length, lossS_length, diffS_length]; exact h
  simp only [calculate_rsi]
  rw [List.getD_eq_getElem?_getD, List.getElem?_map, List.getElem?_zipWith,
    getElem?_eq_some_getD _ i none hg, getElem?_eq_some_getD _ i none hl]
  rfl

/-- Out-of-range RSI entries default to NaN. -/
theorem calculate_rsi_getD_oob (data : List ℚ) (periods i : Nat)
    (h : data.length ≤ i) :
    (calculate_rsi data periods).getD i XF.nan = XF.nan := by
  rw [List.getD_eq_getElem?_getD, List.getElem?_eq_none]
  · rfl
  · rw [calculate_rsi_length]; exact h

/-- Gains are nonnegative. -/
theorem gainS_nonneg (delta : List (Option ℚ)) : ∀ x ∈ gainS delta, 0 ≤ x := by
  intro x hx
  simp only [gainS, List.mem_map] at hx
  obtain ⟨d, _, rfl⟩ := hx
  cases d with
  | none => exact le_refl 0
  | some v =>
    by_cases h0 : 0 < v
    · simp [h0]
      linarith
    · simp [h0]

/-- Loss magnitudes are nonnegative. -/
theorem lossS_nonneg (delta : List (Option ℚ)) : ∀ x ∈ lossS delta, 0 ≤ x := by
  intro x hx
  simp only [lossS, List.mem_map] at hx
  obtain ⟨d, _, rfl⟩ := hx
  cases d with
  | none => exact le_refl 0
  | some v =>
    by_cases h0 : v < 0
    · simp [h0]
      linarith
    · simp [h0]

/-- A rolling mean of a nonnegative series is nonnegative where defined. -/
theorem rollingMean_nonneg (w : Nat) (xs : List ℚ) (hxs : ∀ x ∈ xs, 0 ≤ x)
    (i : Nat) (q : ℚ) (hq : (rollingMean w xs).getD i none = some q) : 0 ≤ q := by
  by_cases h : i < xs.length
  · rw [rollingMean_getD w xs i h] at hq
    by_cases h2 : i + 1 < w
    · simp [h2] at hq
    · simp only [h2, if_false, Option.some.injEq] at hq
      rw [← hq]
      apply div_nonneg
      · exact List.sum_nonneg fun x hx =>
          hxs x (List.mem_of_mem_take (List.mem_of_mem_drop hx))
      · exact Nat.cast_nonneg w
  · rw [List.getD_eq_getElem?_getD, List.getElem?_eq_none
      (by rw [rollingMean_length]; omega)] at hq
    cases hq

/-- `100 - 100 / (1 + gain / loss)` on nonnegative gain and loss: every
finite result lies in `[0, 100]`. -/
theorem rsiStep_cases (g l : Option ℚ)
    (hg : ∀ q, g = some q → 0 ≤ q) (hl : ∀ q, l = some q → 0 ≤ q) :
    ∀ q, xsub (XF.fin 100) (xdiv (XF.fin 100)
        (xadd (XF.fin 1) (xdiv (toXF g) (toXF l)))) = XF.fin q →
      0 ≤ q ∧ q ≤ 100 := by
  intro q hq
  cases g with
  | none => cases l <;> simp [toXF, xdiv, xadd, xsub] at hq
  | some gv =>
    cases l with
    | none => simp [toXF, xdiv, xadd, xsub] at hq
    | some lv =>
      have hgv := hg gv rfl
      have hlv := hl lv rfl
      by_cases h0 : lv = 0
      · subst h0
        by_cases hpos : 0 < gv
        · simp [toXF, xdiv, hpos, xadd, xsub] at hq
          subst hq
          norm_num
        · have hz : gv = 0 := le_antisymm (not_lt.1 hpos) hgv
          subst hz
          simp [toXF, xdiv, xadd, xsub] at hq
      · have hlpos : 0 < lv := lt_of_le_of_ne hlv (Ne.symm h0)
        have hrs : 0 ≤ gv / lv := div_nonneg hgv hlv
        have h1 : (0 : ℚ) < 1 + gv / lv := by linarith
        simp only [toXF, xdiv, h0, if_false, xadd, h1.ne', xsub] at hq
        simp only [XF.fin.injEq] at hq
        have hle : 100 / (1 + gv / lv) ≤ 100 := div_le_self (by norm_num) (by linarith)
        have hpos2 : 0 < 100 / (1 + gv / lv) := div_pos (by norm_num) h1
        constructor <;> linarith [hq]

/-- C4 (amended): for every closing-price series, `calculate_rsi` returns
a sequence of the same length whose first `periods - 1 = 13` entries are
undefined (the entry at index 13 can already be defined, because
`where(delta > 0, 0)` turns the initial NaN difference into a zero
observation — see the counterexample); every defined entry lies in
`[0, 100]`; where the trailing average loss is zero and the average gain
positive the value is 100, and it is undefined when both are zero. -/
theorem c4_rsi_shape (data : List ℚ) :
    (calculate_rsi data 14).length = data.length ∧
    (∀ i, i < 13 → (calculate_rsi data 14).getD i XF.nan = XF.nan) ∧
    (∀ i q, (calculate_rsi data 14).getD i XF.nan = XF.fin q → 0 ≤ q ∧ q ≤ 100) ∧
    (∀ i g l, (rollingMean 14 (gainS (diffS data))).getD i none = some g →
        (rollingMean 14 (lossS (diffS data))).getD i none = some l →
        ((l = 0 ∧ 0 < g) → (calculate_rsi data 14).getD i XF.nan = XF.fin 100) ∧
        ((l = 0 ∧ g = 0) → (calculate_rsi data 14).getD i XF.nan = XF.nan)) := by
  refine ⟨calculate_rsi_length data 14, ?_, ?_, ?_⟩
  · intro i h13
    by_cases h : i < data.length
    · have hgn : (rollingMean 14 (gainS (diffS data))).getD i none = none := by
        rw [rollingMean_getD _ _ i (by rw [gainS_length, diffS_length]; exact h)]
        rw [if_pos (by omega)]
      have hln : (rollingMean 14 (lossS (diffS data))).getD i none = none := by
        rw [rollingMean_getD _ _ i (by rw [lossS_length, diffS_length]; exact h)]
        rw [if_pos (by omega)]
      rw [calculate_rsi_getD data 14 i h, hgn, hln]
      rfl
    · exact calculate_rsi_getD_oob _ _ _ (by omega)
  · intro i q hq
    by_cases h : i < data.length
    · rw [calculate_rsi_getD data 14 i h] at hq
      exact rsiStep_cases _ _
        (fun q2 hq2 => rollingMean_nonneg _ _ (gainS_nonneg _) i q2 hq2)
        (fun q2 hq2 => rollingMean_nonneg _ _ (lossS_nonneg _) i q2 hq2) q hq
    · rw [calculate_rsi_getD_oob _ _ _ (by omega)] at hq
      cases hq
  · intro i g l hgeq hleq
    have h : i < data.length := by
      by_contra hcon
      rw [List.getD_eq_getElem?_getD, List.getElem?_eq_none
        (by rw [rollingMean_length, gainS_length, diffS_length]; omega)] at hgeq
      cases hgeq
    constructor
    · rintro ⟨rfl, hgpos⟩
      rw [calculate_rsi_getD data 14 i h, hgeq, hleq]
      simp [toXF, xdiv, hgpos, xadd, xsub]
    · rintro ⟨rfl, rfl⟩
      rw [calculate_rsi_getD data 14 i h, hgeq, hleq]
      simp [toXF, xdiv, xadd, xsub]

/-- C4 (counterexample): the claim says the first `periods = 14` entries
are undefined.  On the strictly increasing 15-day series the entry at
index 13 — the 14th entry — is already defined (and equals 100): only the
first 13 entries are undefined, because the initial NaN difference is
replaced by 0 by the `where` clause and rolling windows of 14 observations
are then full one bar early. -/
theorem c4_counterexample :
    (calculate_rsi dat15 14).length = 15 ∧
    (calculate_rsi dat15 14).getD 13 XF.nan = XF.fin 100 ∧
    (calculate_rsi dat15 14).getD 13 XF.nan ≠ XF.nan := by
  refine ⟨?_, ?_, ?_⟩ <;> decide

/-- C4 witness: the amended statement evaluated on the concrete series. -/
theorem c4_rsi_shape_witness :
    (calculate_rsi dat15 14).getD 0 XF.nan = XF.nan ∧
    ((0 : ℚ) ≤ 100 ∧ (100 : ℚ) ≤ 100) := by
  have h := c4_rsi_shape dat15
  exact ⟨h.2.1 0 (by omega), h.2.2.1 13 100 (by decide)⟩
